import Mathlib

/-!
# ports/gtk-webkit/server.h — XML-RPC window server

A shallow embedding of `server.h` (the three handlers `window_make`,
`window_delete`, `window_active`, the dispatcher `server_handler` and the
start-up code `start_server`) together with the properties of the
specification that can be stated over it.

C pointers that may be `NULL` are `Option`s, code that can crash returns
`Except Fault`, the process-wide globals are an explicit `State` that every
handler receives and returns. Warnings (`g_warning`) are kept in a log; debug
output (`g_debug`), which has no effect on the process, is left out.

GLib, GTK and libsoup are libraries: their functions are modelled after their
documented contracts. `autokey-dictionary.h` and `window.h` belong to the port but
their text is not available; what server.h uses of them is modelled from the
specification and marked so.
-/

namespace GtkWebkit

/-! ## Faults -/

/-- The ways in which the C code can leave defined behaviour. -/
inductive Fault
  /-- A GLib accessor was called outside its documented precondition. -/
  | glib_precondition
  /-- A member of a `NULL` pointer was read (`window->base` with `window == NULL`). -/
  | null_dereference
  /-- A pointer that addresses no allocated `Window` was read. -/
  | invalid_pointer
  /-- A toolkit call received a widget that is not alive. -/
  | dead_widget
  deriving DecidableEq, Repr

/-! ## GLib: GVariant -/

/-- The GVariant values the server can meet: the basic types of XML-RPC, a file
handle (a type XML-RPC cannot carry), boxed values and arrays. An array records the
type string of its elements, as an empty array has a type too. -/
inductive GVariant
  | boolean (b : Bool)
  | int32 (n : Int)
  | string (s : String)
  | handle (h : Int)
  | variant (v : GVariant)
  | array (elem_type : String) (children : List GVariant)

/-- Type string of a value: `g_variant_get_type_string`. -/
def g_variant_get_type_string : GVariant → String
  | .boolean _ => "b"
  | .int32 _ => "i"
  | .string _ => "s"
  | .handle _ => "h"
  | .variant _ => "v"
  | .array elem_type _ => "a" ++ elem_type

/-- Whether the value has the type the format string describes:
`g_variant_check_format_string (value, format_string, FALSE)`. -/
def g_variant_check_format_string (value : GVariant) (format_string : String) : Bool :=
  g_variant_get_type_string value == format_string

/-- Child of a container: `g_variant_get_child_value`. The value must be a container
(an array; a boxed value is a container of one child) and the index in range. -/
def g_variant_get_child_value : GVariant → Nat → Except Fault GVariant
  | .array _ children, index =>
    match children[index]? with
    | some child => .ok child
    | none => .error .glib_precondition
  | .variant v, 0 => .ok v
  | _, _ => .error .glib_precondition

/-- Unboxes a boxed value: `g_variant_get_variant`. The value must be of type `v`. -/
def g_variant_get_variant : GVariant → Except Fault GVariant
  | .variant v => .ok v
  | _ => .error .glib_precondition

/-- String held by a value: `g_variant_get_string (value, NULL)`. The value must be
of a string type. -/
def g_variant_get_string : GVariant → Except Fault String
  | .string s => .ok s
  | _ => .error .glib_precondition

/-- Builds a boolean value: `g_variant_new_boolean`. -/
def g_variant_new_boolean (b : Bool) : GVariant := .boolean b

/-- Builds a string value: `g_variant_new_string`. The C string must not be `NULL`. -/
def g_variant_new_string : Option String → Except Fault GVariant
  | some s => .ok (.string s)
  | none => .error .glib_precondition

/-! ## GLib: GHashTable with string keys -/

/-- A hash table keyed by strings (`g_str_hash`, `g_str_equal`): the entries in the
order in which an iterator visits them. GLib walks the buckets of the table, so
this order follows the hash values and the size of the table: it is not the order
of insertion, it is not specified, and it changes when the table is resized. The
operations below have to put the entries in some order; which order a real table
presents is left open (`rehash`, and the step of that name of `Reachable`). -/
abbrev GHashTable (α : Type) := List (String × α)

/-- The empty table: `g_hash_table_new`. -/
def g_hash_table_new {α : Type} : GHashTable α := []

/-- Inserts a key: `g_hash_table_insert`. A key already present gets the new value;
a new key is put last here, which is a choice of the model and not what an iterator
of GLib has to see (see `GHashTable`): what is specified is the content of the
table after the insertion. -/
def g_hash_table_insert {α : Type} : GHashTable α → String → α → GHashTable α
  | [], key, value => [(key, value)]
  | (k, v) :: rest, key, value =>
    if k = key then (k, value) :: rest else (k, v) :: g_hash_table_insert rest key value

/-- Value stored under a key, `NULL` when there is none: `g_hash_table_lookup`. -/
def g_hash_table_lookup {α : Type} : GHashTable α → String → Option α
  | [], _ => none
  | (k, v) :: rest, key => if k = key then some v else g_hash_table_lookup rest key

/-- Looks a key up and tells whether it is present: `g_hash_table_lookup_extended`.
`none` is "not found", `some value` is "found" with the value stored. -/
def g_hash_table_lookup_extended {α : Type} (hash_table : GHashTable α) (lookup_key : String) :
    Option α :=
  g_hash_table_lookup hash_table lookup_key

/-- Removes a key: `g_hash_table_remove`. -/
def g_hash_table_remove {α : Type} (hash_table : GHashTable α) (key : String) : GHashTable α :=
  hash_table.filter (fun entry => entry.1 ≠ key)

/-! ## The toolkit -/

/-- What the server can observe of GTK: the widgets that are alive and the toplevel
windows that currently have the focus. A widget is named by a number (its address). -/
structure Gtk where
  live : List Nat
  active : List Nat
  deriving DecidableEq, Repr

/-- Address of a newly created widget: any address no live widget has. Addresses of
destroyed widgets may come back. -/
def Gtk.fresh (gtk : Gtk) : Nat := gtk.live.foldr (fun h acc => max (h + 1) acc) 0

/-- Destroys a widget: `gtk_widget_destroy`. The widget must be alive. -/
def gtk_widget_destroy (gtk : Gtk) (widget : Nat) : Except Fault Gtk :=
  if widget ∈ gtk.live then
    .ok { live := gtk.live.filter (fun h => h ≠ widget),
          active := gtk.active.filter (fun h => h ≠ widget) }
  else .error .dead_widget

/-- Whether the toplevel has the focus: `gtk_window_is_active`. -/
def gtk_window_is_active (gtk : Gtk) (window : Nat) : Bool := decide (window ∈ gtk.active)

/-! ## Windows and the registry -/

/-- Modelled from the spec: `Window` (the text of window.h is not available), the
WindowHandle of §3 with the two fields server.h reads and writes: `base`, the
toolkit widget, and `identifier`, the identifier under which the window is
registered (`NULL` until it is set). -/
structure Window where
  base : Nat
  identifier : Option String
  deriving DecidableEq, Repr

/-- Modelled from the spec: `AutokeyDictionary` (the text of autokey-dictionary.h is not
available). The registry of §3 and §4.2: a mapping from identifier to
window (server.h reads its hash table `_dict` directly) and what is needed to
allocate "a fresh, never-before-issued identifier", the number of identifiers
issued so far. The values stored are pointers to `Window`. -/
structure AutokeyDictionary where
  _dict : GHashTable Nat
  issued : Nat
  deriving DecidableEq, Repr

/-- Modelled from the spec: `akd_init`, the registry "created at process start",
empty. -/
def akd_init : AutokeyDictionary := { _dict := g_hash_table_new, issued := 0 }

/-- Modelled from the spec: `akd_insert_element`, the `create(handle) -> identifier`
of §4.2: "allocates a fresh, never-before-issued identifier, associates it with
`handle`, returns the identifier". The spec fixes no format for identifiers; here
the n-th identifier issued is the decimal numeral of n. -/
def akd_insert_element (self : AutokeyDictionary) (object : Nat) : String × AutokeyDictionary :=
  let element_key := toString self.issued
  (element_key,
    { _dict := g_hash_table_insert self._dict element_key object, issued := self.issued + 1 })

/-- Modelled from the spec: `akd_object_for_key`, the `lookup(identifier)` of §4.2:
"returns the associated handle, or signals `NotFound` if no live registration exists
for that identifier"; in C, `NotFound` is the `NULL` pointer. -/
def akd_object_for_key (self : AutokeyDictionary) (a_key : String) : Option Nat :=
  g_hash_table_lookup self._dict a_key

/-- Modelled from the spec: `akd_remove_object_for_key`, the `remove(identifier)` of
§4.2: "disassociates the identifier; subsequent `lookup` on it must return
`NotFound`"; removing an unknown identifier changes nothing. -/
def akd_remove_object_for_key (self : AutokeyDictionary) (a_key : String) : AutokeyDictionary :=
  { self with _dict := g_hash_table_remove self._dict a_key }

/-! ## Process state -/

/-- The state the handlers work on: the global `windows`, the `Window` structures
allocated so far (a pointer is an index into `heap`), the toolkit, and the
warnings written with `g_warning`. -/
structure State where
  windows : AutokeyDictionary
  heap : List Window
  gtk : Gtk
  log : List String
  deriving DecidableEq, Repr

/-- Writes a warning: `g_warning`. -/
def g_warning (s : State) (message : String) : State := { s with log := s.log ++ [message] }

/-- Reads the structure a `Window *` points to. -/
def State.deref (s : State) (window : Nat) : Except Fault Window :=
  match s.heap[window]? with
  | some w => .ok w
  | none => .error .invalid_pointer

/-- Modelled from the spec: `window_init` (the text of window.h is not available),
the `createWindow() -> handle` of §6: the toolkit creates a new window, and a new
`Window` structure holds it. Returns the pointer to the structure. -/
def window_init (s : State) : Nat × State :=
  let base := s.gtk.fresh
  (s.heap.length,
    { s with heap := s.heap ++ [{ base := base, identifier := none }],
             gtk := { s.gtk with live := base :: s.gtk.live } })

/-! ## libsoup -/

/-- The parameters of a call, `SoupXMLRPCParams`: server.h sees of them only what
`soup_xmlrpc_params_parse` makes of them, an error or a value. -/
structure SoupXMLRPCParams where
  parsed : Except String GVariant

/-- Parses the parameters without a signature: `soup_xmlrpc_params_parse (params, NULL,
&error)`, the value or the message of the error. -/
def soup_xmlrpc_params_parse (params : SoupXMLRPCParams) : Except String GVariant :=
  params.parsed

/-- The part of a `SoupMessage` that server.h touches: the bytes of the request body and
the XML-RPC response, absent until `soup_xmlrpc_message_set_response` sets it. -/
structure SoupMessage where
  request_body : List UInt8
  response : Option GVariant

mutual
/-- Whether libsoup can write the value as an XML-RPC value: booleans, integers,
strings, arrays of such values; a boxed value counts as what it boxes. -/
def xmlrpc_supported : GVariant → Bool
  | .boolean _ => true
  | .int32 _ => true
  | .string _ => true
  | .handle _ => false
  | .variant v => xmlrpc_supported v
  | .array _ children => xmlrpc_supported_all children
/-- Whether libsoup can write every value of the list. -/
def xmlrpc_supported_all : List GVariant → Bool
  | [] => true
  | v :: rest => xmlrpc_supported v && xmlrpc_supported_all rest
end

/-- Sets the response of a message: `soup_xmlrpc_message_set_response (msg, value,
&error)`; the message with its response, or the message of the error. -/
def soup_xmlrpc_message_set_response (msg : SoupMessage) (value : GVariant) :
    Except String SoupMessage :=
  if xmlrpc_supported value then .ok { msg with response := some value }
  else .error ("Unsupported type: " ++ g_variant_get_type_string value)

/-! ## The handlers -/

/-- A handler: `ServerCallback`, from the parameters to the result, acting on the
process state. -/
abbrev ServerCallback := SoupXMLRPCParams → State → Except Fault (GVariant × State)

/-- Handler of `window.make`. -/
def window_make (_params : SoupXMLRPCParams) (s : State) : Except Fault (GVariant × State) :=
  let (window, s) := window_init s
  let (element_key, windows) := akd_insert_element s.windows window
  -- window->identifier = ...
  match s.deref window with
  | .error fault => .error fault
  | .ok w =>
    let s := { s with windows := windows,
                      heap := s.heap.set window { w with identifier := some element_key } }
    match s.deref window with
    | .error fault => .error fault
    | .ok w =>
      match g_variant_new_string w.identifier with
      | .error fault => .error fault
      | .ok result => .ok (result, s)

/-- Handler of `window.delete`. -/
def window_delete (params : SoupXMLRPCParams) (s : State) : Except Fault (GVariant × State) :=
  match soup_xmlrpc_params_parse params with
  | .error message =>
    .ok (g_variant_new_boolean false, g_warning s ("Malformed method parameters: " ++ message))
  | .ok variant =>
    -- the check of the type warns and goes on
    let s :=
      if !g_variant_check_format_string variant "av" then
        g_warning s ("Malformed parameter value: " ++ g_variant_get_type_string variant)
      else s
    match g_variant_get_child_value variant 0 with
    | .error fault => .error fault
    | .ok child =>
      match g_variant_get_variant child with
      | .error fault => .error fault
      | .ok boxed =>
        match g_variant_get_string boxed with
        | .error fault => .error fault
        | .ok a_key =>
          match akd_object_for_key s.windows a_key with
          -- `window->base` is read with no test of `window`
          | none => .error .null_dereference
          | some window =>
            match s.deref window with
            | .error fault => .error fault
            | .ok w =>
              match gtk_widget_destroy s.gtk w.base with
              | .error fault => .error fault
              | .ok gtk =>
                .ok (g_variant_new_boolean true,
                  { s with gtk := gtk, windows := akd_remove_object_for_key s.windows a_key })

/-- The loop of `window_active` over the entries of `windows->_dict` that are still to
be visited: the identifier of the first window that is active, as a string value. -/
def window_active_iter (s : State) : GHashTable Nat → Except Fault (Option GVariant)
  | [] => .ok none
  | (_, value) :: rest =>
    match s.deref value with
    | .error fault => .error fault
    | .ok window =>
      if gtk_window_is_active s.gtk window.base then
        match g_variant_new_string window.identifier with
        | .error fault => .error fault
        | .ok result => .ok (some result)
      else window_active_iter s rest

/-- Handler of `window.active`. -/
def window_active (_params : SoupXMLRPCParams) (s : State) : Except Fault (GVariant × State) :=
  match window_active_iter s s.windows._dict with
  | .error fault => .error fault
  | .ok (some result) => .ok (result, s)
  | .ok none => .ok (.string "-1", s)

/-! ## The dispatcher -/

/-- The decoder of call envelopes, `soup_xmlrpc_parse_request`: from the bytes of a
request body to the method name and the parameters, or the message of an error. -/
abbrev Decoder := List UInt8 → Except String (String × SoupXMLRPCParams)

/-- The request handler registered with the HTTP server. `server_callbacks` is the
global of that name; the result is the message and the state when the handler
returns. Of the block that logs the request, only the test for an empty body has
an effect. -/
def server_handler (soup_xmlrpc_parse_request : Decoder)
    (server_callbacks : GHashTable ServerCallback) (msg : SoupMessage) (s : State) :
    Except Fault (SoupMessage × State) :=
  if msg.request_body.length = 0 then
    .ok (msg, g_warning s "Empty HTTP request")
  else
    match soup_xmlrpc_parse_request msg.request_body with
    | .error message => .ok (msg, g_warning s ("Malformed XMLRPC request: " ++ message))
    | .ok (method_name, params) =>
      match g_hash_table_lookup_extended server_callbacks method_name with
      | none => .ok (msg, g_warning s ("Unknown method: " ++ method_name))
      | some callback =>
        match callback params s with
        | .error fault => .error fault
        | .ok (operation_result, s) =>
          match soup_xmlrpc_message_set_response msg operation_result with
          | .error message =>
            .ok (msg, g_warning s ("Failed to set XMLRPC response: " ++ message))
          | .ok msg => .ok (msg, s)

/-- The method table as `start_server` fills it. -/
def server_callbacks : GHashTable ServerCallback :=
  let server_callbacks := g_hash_table_new
  let server_callbacks := g_hash_table_insert server_callbacks "window.make" window_make
  let server_callbacks := g_hash_table_insert server_callbacks "window.delete" window_delete
  let server_callbacks := g_hash_table_insert server_callbacks "window.active" window_active
  server_callbacks

/-- Starts the server: `start_server`. `listen_error` is the error of
`soup_server_listen_all`, if any: the process then exits (`none`). On success the
method table is filled and the registry is created; no `Window` was allocated and
nothing was logged yet. -/
def start_server (listen_error : Option String) (gtk : Gtk) :
    Option (GHashTable ServerCallback × State) :=
  match listen_error with
  | some _ => none
  | none => some (server_callbacks, { windows := akd_init, heap := [], gtk := gtk, log := [] })

/-! ## Vocabulary of the properties -/

/-- The parameters of a call with a single parameter, a boxed string: what
`window.delete` expects, of type `av` with one child that boxes the identifier. -/
def boxed_string_params (identifier : String) : SoupXMLRPCParams :=
  { parsed := .ok (.array "v" [.variant (.string identifier)]) }

/-- The registry with its entries in another order, `entries` being a rearrangement
of the entries it holds: the order in which GLib happens to keep them. -/
def rehash (s : State) (entries : GHashTable Nat) : State :=
  { s with windows := { s.windows with _dict := entries } }

/-- The toolkit moves the focus: the windows it reports active change, nothing else
does. This happens between requests. -/
def focus (s : State) (active : List Nat) : State :=
  { s with gtk := { s.gtk with active := active } }

/-- Whether an entry of the registry points to a window that the toolkit reports
active. -/
def State.is_active_entry (s : State) (entry : String × Nat) : Bool :=
  match s.heap[entry.2]? with
  | some w => gtk_window_is_active s.gtk w.base
  | none => false

/-- The states the process can be in: the state `start_server` leaves, and those that
follow by a handler of the method table returning, by a change of focus and by a
warning being logged. As GLib does not specify the order in which the iterator of
a hash table visits the entries, a reachable state may hold the entries of the
registry in any order (`rehash`): whatever order the real table presents after a
sequence of calls, the state with that order is reachable. -/
inductive Reachable : State → Prop
  | start (gtk : Gtk) (table : GHashTable ServerCallback) (s : State) :
      start_server none gtk = some (table, s) → Reachable s
  | call (s s' : State) (method_name : String) (callback : ServerCallback)
      (params : SoupXMLRPCParams) (result : GVariant) :
      Reachable s →
      g_hash_table_lookup_extended server_callbacks method_name = some callback →
      callback params s = .ok (result, s') → Reachable s'
  | focus (s : State) (active : List Nat) : Reachable s → Reachable (focus s active)
  | rehash (s : State) (entries : GHashTable Nat) :
      Reachable s → entries.Perm s.windows._dict → Reachable (rehash s entries)
  | warning (s : State) (message : String) : Reachable s → Reachable (g_warning s message)

/-- What holds of every reachable state: no identifier is registered twice, every
identifier registered was issued, every registered pointer addresses a `Window`
that carries its identifier and a live widget, and no two registrations share a
widget. -/
structure Inv (s : State) : Prop where
  keys_nodup : (s.windows._dict.map Prod.fst).Nodup
  keys_issued : ∀ e ∈ s.windows._dict, ∃ i, i < s.windows.issued ∧ e.1 = toString i
  registered : ∀ e ∈ s.windows._dict,
    ∃ w, s.heap[e.2]? = some w ∧ w.identifier = some e.1 ∧ w.base ∈ s.gtk.live
  bases_distinct : ∀ e₁ ∈ s.windows._dict, ∀ e₂ ∈ s.windows._dict, ∀ w₁ w₂,
    s.heap[e₁.2]? = some w₁ → s.heap[e₂.2]? = some w₂ → w₁.base = w₂.base → e₁ = e₂

/-- What happens to the process between two requests or with one: a request body
arrives, or the toolkit moves the focus. -/
inductive Event
  | request (request_body : List UInt8)
  | focus (active : List Nat)

/-- Runs the server over a sequence of events, one after another. The result is the
list of the responses sent, each with the method name of its request, and the final
state; the state is `none` when a handler faulted, which ends the process. -/
def serve (soup_xmlrpc_parse_request : Decoder) (table : GHashTable ServerCallback) :
    List Event → State → List (String × GVariant) × Option State
  | [], s => ([], some s)
  | .focus active :: rest, s => serve soup_xmlrpc_parse_request table rest (focus s active)
  | .request request_body :: rest, s =>
    match server_handler soup_xmlrpc_parse_request table
        { request_body := request_body, response := none } s with
    | .error _ => ([], none)
    | .ok (msg, s') =>
      let later := serve soup_xmlrpc_parse_request table rest s'
      match soup_xmlrpc_parse_request request_body, msg.response with
      | .ok (method_name, _), some value => ((method_name, value) :: later.1, later.2)
      | _, _ => later

/-- The values that the `window.make` calls of a run returned, in order. -/
def made_identifiers (responses : List (String × GVariant)) : List GVariant :=
  responses.filterMap (fun r => if r.1 = "window.make" then some r.2 else none)

/-- Value of a decimal digit character. -/
def digit_value (c : Char) : Nat := c.toNat - 48

/-- Reads a list of digits, most significant first, onto an accumulator. -/
def read_digits (acc : Nat) (digits : List Char) : Nat :=
  digits.foldl (fun a c => a * 10 + digit_value c) acc

/-! ## Concrete inputs -/

/-- A small decoder to run the server on concrete requests: the first byte of the
body names the method, and a second byte after a 2 is the number whose numeral
`window.delete` receives as its boxed string. Anything else does not decode. -/
def example_decoder : Decoder
  | [1] => .ok ("window.make", { parsed := .ok (.array "v" []) })
  | [2, n] => .ok ("window.delete", boxed_string_params (toString n.toNat))
  | [3] => .ok ("window.active", { parsed := .ok (.array "v" []) })
  | [4] => .ok ("nonexistent.method", { parsed := .ok (.array "v" []) })
  | _ => .error "not an XML-RPC call"

/-- The state after `start_server` with no widget alive. -/
def example_start : State :=
  { windows := akd_init, heap := [], gtk := { live := [], active := [] }, log := [] }

/-- A state with two registered windows, the second of which has the focus. -/
def example_two_windows : State :=
  { windows := { _dict := [("0", 0), ("1", 1)], issued := 2 },
    heap := [{ base := 0, identifier := some "0" }, { base := 1, identifier := some "1" }],
    gtk := { live := [1, 0], active := [1] },
    log := [] }

/-- The two windows of `example_two_windows`, both with the focus, in a registry whose
iterator meets the identifier issued second before the one issued first: the order
GLib presents after these two insertions. -/
def example_two_windows_rehashed : State :=
  { windows := { _dict := [("1", 1), ("0", 0)], issued := 2 },
    heap := [{ base := 0, identifier := some "0" }, { base := 1, identifier := some "1" }],
    gtk := { live := [1, 0], active := [0, 1] },
    log := [] }

/-! ## Decimal numerals are injective -/

theorem digit_value_digitChar (d : Nat) (h : d < 10) : digit_value (Nat.digitChar d) = d := by
  interval_cases d <;> rfl

theorem read_digits_toDigitsCore (fuel : Nat) :
    ∀ (n : Nat) (ds : List Char), n < fuel →
      read_digits 0 (Nat.toDigitsCore 10 fuel n ds) = read_digits n ds := by
  induction fuel with
  | zero => intro n ds h; omega
  | succ fuel ih =>
    intro n ds h
    have hd : digit_value (Nat.digitChar (n % 10)) = n % 10 :=
      digit_value_digitChar _ (Nat.mod_lt _ (by decide))
    simp only [Nat.toDigitsCore]
    by_cases h0 : n / 10 = 0
    · simp only [h0, if_true]
      have hn : n % 10 = n := Nat.mod_eq_of_lt (by omega)
      simp only [read_digits, List.foldl_cons]
      rw [hd, hn, Nat.zero_mul, Nat.zero_add]
    · simp only [h0, if_false]
      rw [ih (n / 10) _ (by omega)]
      have : n / 10 * 10 + n % 10 = n := by omega
      simp [read_digits, hd, this]

theorem toString_nat_injective (m n : Nat) (h : toString m = toString n) : m = n := by
  have h1 : Nat.toDigits 10 m = Nat.toDigits 10 n := by
    have : (Nat.toDigits 10 m).asString = (Nat.toDigits 10 n).asString := h
    exact congrArg String.data this
  have hm := read_digits_toDigitsCore (m + 1) m [] (by omega)
  have hn := read_digits_toDigitsCore (n + 1) n [] (by omega)
  simp only [Nat.toDigits] at h1
  rw [h1] at hm
  simpa [read_digits] using hm.symm.trans hn

/-! ## Hash table laws -/

theorem g_hash_table_lookup_insert_self {α : Type} (t : GHashTable α) (key : String) (value : α) :
    g_hash_table_lookup (g_hash_table_insert t key value) key = some value := by
  induction t with
  | nil => simp [g_hash_table_insert, g_hash_table_lookup]
  | cons e rest ih =>
    obtain ⟨k, v⟩ := e
    by_cases hk : k = key
    · simp [g_hash_table_insert, g_hash_table_lookup, hk]
    · simp [g_hash_table_insert, g_hash_table_lookup, hk, ih]

theorem g_hash_table_lookup_insert_ne {α : Type} (t : GHashTable α) (key other : String)
    (value : α) (h : other ≠ key) :
    g_hash_table_lookup (g_hash_table_insert t key value) other = g_hash_table_lookup t other := by
  induction t with
  | nil => simp [g_hash_table_insert, g_hash_table_lookup, Ne.symm h]
  | cons e rest ih =>
    obtain ⟨k, v⟩ := e
    by_cases hk : k = key
    · subst hk
      simp [g_hash_table_insert, g_hash_table_lookup, Ne.symm h]
    · by_cases ho : k = other
      · subst ho
        simp [g_hash_table_insert, g_hash_table_lookup, h]
      · simp [g_hash_table_insert, g_hash_table_lookup, hk, ho, ih]

theorem g_hash_table_lookup_remove_self {α : Type} (t : GHashTable α) (key : String) :
    g_hash_table_lookup (g_hash_table_remove t key) key = none := by
  induction t with
  | nil => rfl
  | cons e rest ih =>
    obtain ⟨k, v⟩ := e
    by_cases hk : k = key
    · simpa [g_hash_table_remove, hk] using ih
    · have : g_hash_table_remove ((k, v) :: rest) key = (k, v) :: g_hash_table_remove rest key := by
        simp [g_hash_table_remove, hk]
      rw [this]
      simp [g_hash_table_lookup, hk, ih]

theorem g_hash_table_lookup_remove_ne {α : Type} (t : GHashTable α) (key other : String)
    (h : other ≠ key) :
    g_hash_table_lookup (g_hash_table_remove t key) other = g_hash_table_lookup t other := by
  induction t with
  | nil => rfl
  | cons e rest ih =>
    obtain ⟨k, v⟩ := e
    by_cases hk : k = key
    · subst hk
      have : g_hash_table_remove ((k, v) :: rest) k = g_hash_table_remove rest k := by
        simp [g_hash_table_remove]
      rw [this, ih]
      simp [g_hash_table_lookup, Ne.symm h]
    · have : g_hash_table_remove ((k, v) :: rest) key = (k, v) :: g_hash_table_remove rest key := by
        simp [g_hash_table_remove, hk]
      rw [this]
      by_cases ho : k = other
      · simp [g_hash_table_lookup, ho]
      · simp [g_hash_table_lookup, ho, ih]

/-! ## The handlers on their own -/

theorem window_make_eq (params : SoupXMLRPCParams) (s : State) :
    window_make params s =
      .ok (.string (toString s.windows.issued),
        { windows := (akd_insert_element s.windows s.heap.length).2,
          heap := s.heap ++ [{ base := s.gtk.fresh, identifier := some (toString s.windows.issued) }],
          gtk := { s.gtk with live := s.gtk.fresh :: s.gtk.live },
          log := s.log }) := by
  simp [window_make, window_init, akd_insert_element, State.deref, g_variant_new_string]

theorem window_delete_boxed_eq (identifier : String) (s : State) :
    window_delete (boxed_string_params identifier) s =
      match akd_object_for_key s.windows identifier with
      | none => .error .null_dereference
      | some window =>
        match s.deref window with
        | .error fault => .error fault
        | .ok w =>
          match gtk_widget_destroy s.gtk w.base with
          | .error fault => .error fault
          | .ok gtk =>
            .ok (.boolean true,
              { s with gtk := gtk, windows := akd_remove_object_for_key s.windows identifier }) := by
  have h : g_variant_check_format_string (.array "v" [.variant (.string identifier)]) "av" = true := by
    simp only [g_variant_check_format_string, g_variant_get_type_string]
    decide
  simp [window_delete, boxed_string_params, soup_xmlrpc_params_parse, h,
    g_variant_get_child_value, g_variant_get_variant, g_variant_get_string, g_variant_new_boolean]

theorem window_delete_registered (identifier : String) (s : State) (window : Nat) (w : Window)
    (h_key : akd_object_for_key s.windows identifier = some window)
    (h_ptr : s.heap[window]? = some w) (h_live : w.base ∈ s.gtk.live) :
    window_delete (boxed_string_params identifier) s =
      .ok (.boolean true,
        { s with
          gtk := { live := s.gtk.live.filter (fun h => h ≠ w.base),
                   active := s.gtk.active.filter (fun h => h ≠ w.base) },
          windows := akd_remove_object_for_key s.windows identifier }) := by
  rw [window_delete_boxed_eq]
  simp [h_key, State.deref, h_ptr, gtk_widget_destroy, h_live]

theorem window_delete_unregistered (identifier : String) (s : State)
    (h_key : akd_object_for_key s.windows identifier = none) :
    window_delete (boxed_string_params identifier) s = .error .null_dereference := by
  rw [window_delete_boxed_eq]
  simp [h_key]

theorem akd_object_for_key_removed (d : AutokeyDictionary) (identifier : String) :
    akd_object_for_key (akd_remove_object_for_key d identifier) identifier = none := by
  simp [akd_object_for_key, akd_remove_object_for_key, g_hash_table_lookup_remove_self]

/-! ## More hash table laws -/

theorem g_hash_table_insert_of_not_mem {α : Type} (t : GHashTable α) (key : String) (value : α)
    (h : key ∉ t.map Prod.fst) : g_hash_table_insert t key value = t ++ [(key, value)] := by
  induction t with
  | nil => rfl
  | cons e rest ih =>
    obtain ⟨k, v⟩ := e
    simp only [List.map_cons, List.mem_cons, not_or] at h
    simp [g_hash_table_insert, Ne.symm h.1, ih h.2]

theorem g_hash_table_mem_of_lookup {α : Type} (t : GHashTable α) (key : String) (value : α)
    (h : g_hash_table_lookup t key = some value) : (key, value) ∈ t := by
  induction t with
  | nil => simp [g_hash_table_lookup] at h
  | cons e rest ih =>
    obtain ⟨k, v⟩ := e
    by_cases hk : k = key
    · simp [g_hash_table_lookup, hk] at h
      simp [hk, h]
    · simp [g_hash_table_lookup, hk] at h
      exact List.mem_cons_of_mem _ (ih h)

theorem g_hash_table_lookup_of_mem {α : Type} (t : GHashTable α) (key : String) (value : α)
    (h_nodup : (t.map Prod.fst).Nodup) (h : (key, value) ∈ t) :
    g_hash_table_lookup t key = some value := by
  induction t with
  | nil => simp at h
  | cons e rest ih =>
    obtain ⟨k, v⟩ := e
    simp only [List.map_cons, List.nodup_cons] at h_nodup
    rcases List.mem_cons.1 h with h | h
    · cases h
      simp [g_hash_table_lookup]
    · have hk : k ≠ key := by
        rintro rfl
        exact h_nodup.1 (List.mem_map_of_mem Prod.fst h)
      simp [g_hash_table_lookup, hk, ih h_nodup.2 h]

theorem g_hash_table_mem_remove {α : Type} (t : GHashTable α) (key : String) (e : String × α) :
    e ∈ g_hash_table_remove t key ↔ e ∈ t ∧ e.1 ≠ key := by
  simp [g_hash_table_remove]

/-! ## The toolkit -/

theorem Gtk.lt_fresh (gtk : Gtk) (h : Nat) (h_live : h ∈ gtk.live) : h < gtk.fresh := by
  obtain ⟨live, active⟩ := gtk
  simp only [Gtk.fresh] at *
  induction live with
  | nil => simp at h_live
  | cons a rest ih =>
    simp only [List.foldr_cons]
    rcases List.mem_cons.1 h_live with rfl | h'
    · omega
    · have := ih h'
      omega

theorem Gtk.fresh_not_mem (gtk : Gtk) : gtk.fresh ∉ gtk.live :=
  fun h => Nat.lt_irrefl _ (gtk.lt_fresh _ h)

/-! ## The method table -/

theorem server_callbacks_lookup (method_name : String) (callback : ServerCallback)
    (h : g_hash_table_lookup_extended server_callbacks method_name = some callback) :
    (method_name = "window.make" ∧ callback = window_make) ∨
    (method_name = "window.delete" ∧ callback = window_delete) ∨
    (method_name = "window.active" ∧ callback = window_active) := by
  have h_table : server_callbacks =
      [("window.make", window_make), ("window.delete", window_delete),
        ("window.active", window_active)] := rfl
  rw [h_table] at h
  simp only [g_hash_table_lookup_extended, g_hash_table_lookup] at h
  by_cases h1 : "window.make" = method_name
  · simp [h1] at h
    exact Or.inl ⟨h1.symm, h.symm⟩
  · by_cases h2 : "window.delete" = method_name
    · simp [h1, h2] at h
      exact Or.inr (Or.inl ⟨h2.symm, h.symm⟩)
    · by_cases h3 : "window.active" = method_name
      · simp [h1, h2, h3] at h
        exact Or.inr (Or.inr ⟨h3.symm, h.symm⟩)
      · simp [h1, h2, h3] at h

/-! ## What a returning `window_delete` did -/

theorem window_delete_ok (params : SoupXMLRPCParams) (s s' : State) (result : GVariant)
    (h : window_delete params s = .ok (result, s')) :
    (∃ message, result = .boolean false ∧ s' = g_warning s message) ∨
    (∃ (s₁ : State) (a_key : String) (window : Nat) (w : Window),
      (s₁ = s ∨ ∃ message, s₁ = g_warning s message) ∧
      akd_object_for_key s₁.windows a_key = some window ∧
      s₁.heap[window]? = some w ∧ w.base ∈ s₁.gtk.live ∧
      result = .boolean true ∧
      s' = { s₁ with
              gtk := { live := s₁.gtk.live.filter (fun h => h ≠ w.base),
                       active := s₁.gtk.active.filter (fun h => h ≠ w.base) },
              windows := akd_remove_object_for_key s₁.windows a_key }) := by
  unfold window_delete at h
  split at h
  · simp only [Except.ok.injEq, Prod.mk.injEq, g_variant_new_boolean] at h
    exact Or.inl ⟨_, h.1.symm, h.2.symm⟩
  · rename_i variant _
    right
    revert h
    generalize hs₁ : (if (!g_variant_check_format_string variant "av") = true then
        g_warning s ("Malformed parameter value: " ++ g_variant_get_type_string variant)
      else s) = s₁
    intro h
    have h_s₁ : s₁ = s ∨ ∃ message, s₁ = g_warning s message := by
      rw [← hs₁]
      split
      · exact Or.inr ⟨_, rfl⟩
      · exact Or.inl rfl
    simp only at h
    split at h
    · cases h
    · split at h
      · cases h
      · split at h
        · cases h
        · rename_i a_key _
          split at h
          · cases h
          · rename_i window h_key
            cases h_ptr : s₁.heap[window]? with
            | none => simp [State.deref, h_ptr] at h
            | some w =>
              by_cases h_live : w.base ∈ s₁.gtk.live
              · simp only [State.deref, h_ptr, gtk_widget_destroy, h_live, if_true,
                  Except.ok.injEq, Prod.mk.injEq, g_variant_new_boolean] at h
                exact ⟨s₁, a_key, window, w, h_s₁, h_key, h_ptr, h_live, h.1.symm, h.2.symm⟩
              · simp [State.deref, h_ptr, gtk_widget_destroy, h_live] at h

/-! ## The invariant -/

theorem Inv.of_start (gtk : Gtk) :
    Inv { windows := akd_init, heap := [], gtk := gtk, log := [] } :=
  { keys_nodup := by simp [akd_init, g_hash_table_new]
    keys_issued := by simp [akd_init, g_hash_table_new]
    registered := by simp [akd_init, g_hash_table_new]
    bases_distinct := by simp [akd_init, g_hash_table_new] }

theorem Inv.after_warning {s : State} (h : Inv s) (message : String) : Inv (g_warning s message) :=
  { keys_nodup := h.keys_nodup
    keys_issued := h.keys_issued
    registered := h.registered
    bases_distinct := h.bases_distinct }

theorem Inv.after_focus {s : State} (h : Inv s) (active : List Nat) : Inv (focus s active) :=
  { keys_nodup := h.keys_nodup
    keys_issued := h.keys_issued
    registered := h.registered
    bases_distinct := h.bases_distinct }

theorem Inv.after_rehash {s : State} (h : Inv s) (entries : GHashTable Nat)
    (h_perm : entries.Perm s.windows._dict) : Inv (rehash s entries) :=
  { keys_nodup := ((h_perm.map Prod.fst).nodup_iff).2 h.keys_nodup
    keys_issued := fun e h_e => h.keys_issued e (h_perm.mem_iff.1 h_e)
    registered := fun e h_e => h.registered e (h_perm.mem_iff.1 h_e)
    bases_distinct := fun e₁ h₁ e₂ h₂ =>
      h.bases_distinct e₁ (h_perm.mem_iff.1 h₁) e₂ (h_perm.mem_iff.1 h₂) }

theorem Inv.key_not_issued {s : State} (h : Inv s) :
    toString s.windows.issued ∉ s.windows._dict.map Prod.fst := by
  intro h_mem
  obtain ⟨e, h_e, h_eq⟩ := List.mem_map.1 h_mem
  obtain ⟨i, h_lt, h_i⟩ := h.keys_issued e h_e
  have := toString_nat_injective _ _ (h_i.symm.trans h_eq)
  omega

theorem Inv.ptr_lt {s : State} (h : Inv s) (e : String × Nat) (h_e : e ∈ s.windows._dict) :
    e.2 < s.heap.length := by
  obtain ⟨w, h_w, _⟩ := h.registered e h_e
  exact (List.getElem?_eq_some_iff.1 h_w).1

theorem Inv.after_make {s : State} (h : Inv s) :
    Inv { windows := (akd_insert_element s.windows s.heap.length).2,
          heap := s.heap ++ [{ base := s.gtk.fresh, identifier := some (toString s.windows.issued) }],
          gtk := { s.gtk with live := s.gtk.fresh :: s.gtk.live },
          log := s.log } := by
  have h_dict : (akd_insert_element s.windows s.heap.length).2._dict =
      s.windows._dict ++ [(toString s.windows.issued, s.heap.length)] :=
    g_hash_table_insert_of_not_mem _ _ _ h.key_not_issued
  have h_old : ∀ e ∈ s.windows._dict, ∀ x : Window, (s.heap ++ [x])[e.2]? = s.heap[e.2]? :=
    fun e h_e x => List.getElem?_append_left (h.ptr_lt e h_e)
  refine ⟨?_, ?_, ?_, ?_⟩
  · simp only [h_dict, List.map_append, List.map_cons, List.map_nil]
    refine List.Nodup.append h.keys_nodup (List.nodup_singleton _) ?_
    intro k h_k h_k'
    rw [List.mem_singleton.1 h_k'] at h_k
    exact h.key_not_issued h_k
  · intro e h_e
    simp only [h_dict, List.mem_append, List.mem_singleton] at h_e
    rcases h_e with h_e | rfl
    · obtain ⟨i, h_lt, h_i⟩ := h.keys_issued e h_e
      exact ⟨i, by simp only [akd_insert_element]; omega, h_i⟩
    · exact ⟨s.windows.issued, by simp [akd_insert_element], rfl⟩
  · intro e h_e
    simp only [h_dict, List.mem_append, List.mem_singleton] at h_e
    rcases h_e with h_e | rfl
    · obtain ⟨w, h_w, h_id, h_live⟩ := h.registered e h_e
      exact ⟨w, by simp only [h_old e h_e, h_w], h_id, List.mem_cons_of_mem _ h_live⟩
    · exact ⟨_, List.getElem?_concat_length _ _, rfl, List.mem_cons_self _ _⟩
  · intro e₁ h₁ e₂ h₂ w₁ w₂ h_w₁ h_w₂ h_base
    simp only [h_dict, List.mem_append, List.mem_singleton] at h₁ h₂
    rcases h₁ with h₁ | rfl <;> rcases h₂ with h₂ | rfl
    · rw [h_old e₁ h₁] at h_w₁
      rw [h_old e₂ h₂] at h_w₂
      exact h.bases_distinct e₁ h₁ e₂ h₂ w₁ w₂ h_w₁ h_w₂ h_base
    · exfalso
      rw [h_old e₁ h₁] at h_w₁
      obtain ⟨w, h_w, _, h_live⟩ := h.registered e₁ h₁
      simp only [List.getElem?_concat_length, Option.some.injEq] at h_w₂
      rw [h_w₁] at h_w
      cases h_w
      rw [h_base, ← h_w₂] at h_live
      exact s.gtk.fresh_not_mem h_live
    · exfalso
      rw [h_old e₂ h₂] at h_w₂
      obtain ⟨w, h_w, _, h_live⟩ := h.registered e₂ h₂
      simp only [List.getElem?_concat_length, Option.some.injEq] at h_w₁
      rw [h_w₂] at h_w
      cases h_w
      rw [← h_base, ← h_w₁] at h_live
      exact s.gtk.fresh_not_mem h_live
    · rfl

theorem Inv.after_delete {s : State} (h : Inv s) (a_key : String) (window : Nat) (w : Window)
    (h_key : akd_object_for_key s.windows a_key = some window)
    (h_ptr : s.heap[window]? = some w) :
    Inv { s with
          gtk := { live := s.gtk.live.filter (fun h => h ≠ w.base),
                   active := s.gtk.active.filter (fun h => h ≠ w.base) },
          windows := akd_remove_object_for_key s.windows a_key } := by
  have h_mem : (a_key, window) ∈ s.windows._dict := g_hash_table_mem_of_lookup _ _ _ h_key
  have h_sub : ∀ e ∈ (akd_remove_object_for_key s.windows a_key)._dict,
      e ∈ s.windows._dict ∧ e.1 ≠ a_key :=
    fun e h_e => (g_hash_table_mem_remove _ _ _).1 h_e
  refine ⟨?_, ?_, ?_, ?_⟩
  · exact (h.keys_nodup.sublist
      (List.Sublist.map _ (List.filter_sublist _)) : _)
  · intro e h_e
    exact h.keys_issued e (h_sub e h_e).1
  · intro e h_e
    obtain ⟨h_e, h_ne⟩ := h_sub e h_e
    obtain ⟨w', h_w', h_id, h_live⟩ := h.registered e h_e
    refine ⟨w', h_w', h_id, ?_⟩
    simp only [List.mem_filter, h_live, true_and, decide_eq_true_eq]
    intro h_base
    have := h.bases_distinct e h_e (a_key, window) h_mem w' w h_w' h_ptr h_base
    exact h_ne (by rw [this])
  · intro e₁ h₁ e₂ h₂ w₁ w₂ h_w₁ h_w₂ h_base
    exact h.bases_distinct e₁ (h_sub e₁ h₁).1 e₂ (h_sub e₂ h₂).1 w₁ w₂ h_w₁ h_w₂ h_base

theorem window_active_state (params : SoupXMLRPCParams) (s s' : State) (result : GVariant)
    (h : window_active params s = .ok (result, s')) : s' = s := by
  unfold window_active at h
  split at h
  · cases h
  · cases h; rfl
  · cases h; rfl

theorem Inv.after_callback {s s' : State} (h : Inv s) (method_name : String)
    (callback : ServerCallback) (params : SoupXMLRPCParams) (result : GVariant)
    (h_table : g_hash_table_lookup_extended server_callbacks method_name = some callback)
    (h_call : callback params s = .ok (result, s')) : Inv s' := by
  rcases server_callbacks_lookup _ _ h_table with ⟨_, rfl⟩ | ⟨_, rfl⟩ | ⟨_, rfl⟩
  · rw [window_make_eq] at h_call
    cases h_call
    exact h.after_make
  · rcases window_delete_ok _ _ _ _ h_call with ⟨m, _, rfl⟩ | ⟨s₁, a_key, window, w, h_s₁, h_key, h_ptr, _, _, rfl⟩
    · exact h.after_warning m
    · have h₁ : Inv s₁ := by
        rcases h_s₁ with rfl | ⟨m, rfl⟩
        · exact h
        · exact h.after_warning m
      exact h₁.after_delete a_key window w h_key h_ptr
  · rw [window_active_state _ _ _ _ h_call]
    exact h

theorem Reachable.inv {s : State} (h : Reachable s) : Inv s := by
  induction h with
  | start gtk table s h_start =>
    simp only [start_server, Option.some.injEq, Prod.mk.injEq] at h_start
    rw [← h_start.2]
    exact Inv.of_start gtk
  | call s s' method_name callback params result _ h_table h_call ih =>
    exact ih.after_callback method_name callback params result h_table h_call
  | focus s active _ ih => exact ih.after_focus active
  | rehash s entries _ h_perm ih => exact ih.after_rehash entries h_perm
  | warning s message _ ih => exact ih.after_warning message

/-- Claim C1, create/delete round trip. In every state, reachable or not,
`window_make` returns a string identifier `I`; `window_delete` called with `I` as its
single boxed-string parameter then returns boolean `true`; and a second
`window_delete` with the same `I` right afterwards does not return `true` (it does
not return at all: `window_delete_unregistered`). -/
theorem window_make_delete_round_trip (params : SoupXMLRPCParams) (s : State) :
    ∃ (identifier : String) (s₁ s₂ : State),
      window_make params s = .ok (.string identifier, s₁) ∧
      window_delete (boxed_string_params identifier) s₁ = .ok (.boolean true, s₂) ∧
      ∀ s₃, window_delete (boxed_string_params identifier) s₂ ≠ .ok (.boolean true, s₃) := by
  refine ⟨toString s.windows.issued, _, _, window_make_eq params s,
    window_delete_registered _ _ s.heap.length
      { base := s.gtk.fresh, identifier := some (toString s.windows.issued) } ?_ ?_ ?_, ?_⟩
  · simp [akd_object_for_key, akd_insert_element, g_hash_table_lookup_insert_self]
  · simp
  · simp
  · intro s₃
    rw [window_delete_unregistered _ _ (akd_object_for_key_removed _ _)]
    simp

/-! ## The scan of `window_active` -/

theorem window_active_iter_eq (s : State) (entries : GHashTable Nat)
    (h : ∀ e ∈ entries, ∃ w, s.heap[e.2]? = some w ∧ w.identifier = some e.1) :
    window_active_iter s entries =
      .ok ((entries.find? s.is_active_entry).map (fun e => GVariant.string e.1)) := by
  induction entries with
  | nil => rfl
  | cons e rest ih =>
    obtain ⟨w, h_w, h_id⟩ := h e (List.mem_cons_self _ _)
    have ih := ih (fun e' h_e' => h e' (List.mem_cons_of_mem _ h_e'))
    obtain ⟨k, p⟩ := e
    simp only at h_w h_id
    by_cases h_act : gtk_window_is_active s.gtk w.base = true
    · simp [window_active_iter, State.deref, h_w, h_act, h_id, g_variant_new_string,
        State.is_active_entry]
    · simp [window_active_iter, State.deref, h_w, h_act, ih, State.is_active_entry]

theorem window_active_iter_none (s : State) (entries : GHashTable Nat)
    (h : ∀ e ∈ entries, ∃ w, s.heap[e.2]? = some w ∧ gtk_window_is_active s.gtk w.base = false) :
    window_active_iter s entries = .ok none := by
  induction entries with
  | nil => rfl
  | cons e rest ih =>
    obtain ⟨w, h_w, h_act⟩ := h e (List.mem_cons_self _ _)
    have ih := ih (fun e' h_e' => h e' (List.mem_cons_of_mem _ h_e'))
    obtain ⟨k, p⟩ := e
    simp only at h_w
    simp [window_active_iter, State.deref, h_w, h_act, ih]

theorem Inv.delete_registered {s : State} (h : Inv s) (e : String × Nat)
    (h_e : e ∈ s.windows._dict) :
    ∃ s', window_delete (boxed_string_params e.1) s = .ok (.boolean true, s') := by
  obtain ⟨w, h_w, _, h_live⟩ := h.registered e h_e
  have h_key : akd_object_for_key s.windows e.1 = some e.2 :=
    g_hash_table_lookup_of_mem _ _ _ h.keys_nodup h_e
  exact ⟨_, window_delete_registered _ _ _ w h_key h_w h_live⟩

theorem window_active_of_iter_none (params : SoupXMLRPCParams) (s : State)
    (h : window_active_iter s s.windows._dict = .ok none) :
    window_active params s = .ok (.string "-1", s) := by
  simp [window_active, h]

/-- Claim C6, active-window sentinel. Whatever the parameters, `window_active`
returns the string "-1" and leaves the state as it is when the registry is empty,
and also when every registered window is one the toolkit reports not active. -/
theorem window_active_sentinel (params : SoupXMLRPCParams) (s : State)
    (h : s.windows._dict = [] ∨
      ∀ e ∈ s.windows._dict,
        ∃ w, s.heap[e.2]? = some w ∧ gtk_window_is_active s.gtk w.base = false) :
    window_active params s = .ok (.string "-1", s) := by
  apply window_active_of_iter_none
  rcases h with h | h
  · rw [h]; rfl
  · exact window_active_iter_none s _ h

/-- Claim C6 on a registry of one window, while another widget has the focus. -/
theorem window_active_sentinel_witness :
    window_active { parsed := .error "ignored" }
        { windows := { _dict := [("0", 0)], issued := 1 },
          heap := [{ base := 7, identifier := some "0" }],
          gtk := { live := [7, 3], active := [3] }, log := [] } =
      .ok (.string "-1",
        { windows := { _dict := [("0", 0)], issued := 1 },
          heap := [{ base := 7, identifier := some "0" }],
          gtk := { live := [7, 3], active := [3] }, log := [] }) :=
  window_active_sentinel _ _ (Or.inr (by
    intro e h_e
    simp only [List.mem_singleton] at h_e
    subst h_e
    exact ⟨{ base := 7, identifier := some "0" }, rfl, by decide⟩))

/-- Claim C5, active-window lookup. First part: in a reachable state in which some
registered window is reported active, `window_active` returns the identifier of the
first entry of the registry, in iteration order, whose window is active; this
identifier is a key of the registry, the window stored under it is that active
window, and `window_delete` on it returns `true`. The reachable states hold the
registry in every order an iterator may present (`Reachable.rehash`), so this is
proved for whatever order GLib visits the entries in, not for the order of
insertion. Second part, the scenario from
server start: `window_make` returns an identifier; if the toolkit then reports the
registered window active, `window_active` returns that identifier; `window_delete`
on it returns `true`; and `window_active` then returns "-1". -/
theorem window_active_first_active (params : SoupXMLRPCParams) :
    (∀ s : State, Reachable s →
      (∃ e ∈ s.windows._dict, s.is_active_entry e = true) →
      ∃ (identifier : String) (window : Nat) (w : Window),
        s.windows._dict.find? s.is_active_entry = some (identifier, window) ∧
        window_active params s = .ok (.string identifier, s) ∧
        akd_object_for_key s.windows identifier = some window ∧
        s.heap[window]? = some w ∧ gtk_window_is_active s.gtk w.base = true ∧
        ∃ s', window_delete (boxed_string_params identifier) s = .ok (.boolean true, s')) ∧
    (∀ (gtk : Gtk) (table : GHashTable ServerCallback) (s₀ : State) (active : List Nat),
      start_server none gtk = some (table, s₀) →
      ∃ (identifier : String) (s₁ s₂ : State),
        window_make params s₀ = .ok (.string identifier, s₁) ∧
        ((∃ e ∈ s₁.windows._dict, (focus s₁ active).is_active_entry e = true) →
          window_active params (focus s₁ active) = .ok (.string identifier, focus s₁ active)) ∧
        window_delete (boxed_string_params identifier) (focus s₁ active) =
          .ok (.boolean true, s₂) ∧
        window_active params s₂ = .ok (.string "-1", s₂)) := by
  constructor
  · intro s h_reach h_active
    have h_inv := h_reach.inv
    obtain ⟨e₀, h_e₀, h_act₀⟩ := h_active
    cases h_find : s.windows._dict.find? s.is_active_entry with
    | none =>
      rw [List.find?_eq_none] at h_find
      exact absurd h_act₀ (h_find e₀ h_e₀)
    | some e =>
      have h_e : e ∈ s.windows._dict := List.mem_of_find?_eq_some h_find
      have h_act : s.is_active_entry e = true := List.find?_some h_find
      obtain ⟨w, h_w, h_id, h_live⟩ := h_inv.registered e h_e
      refine ⟨e.1, e.2, w, rfl, ?_, g_hash_table_lookup_of_mem _ _ _ h_inv.keys_nodup h_e,
        h_w, ?_, h_inv.delete_registered e h_e⟩
      · have h_iter := window_active_iter_eq s s.windows._dict
          (fun e' h_e' => by
            obtain ⟨w', h_w', h_id', _⟩ := h_inv.registered e' h_e'
            exact ⟨w', h_w', h_id'⟩)
        simp [window_active, h_iter, h_find]
      · simpa [State.is_active_entry, h_w] using h_act
  · intro gtk table s₀ active h_start
    simp only [start_server, Option.some.injEq, Prod.mk.injEq] at h_start
    obtain ⟨_, rfl⟩ := h_start
    have h_make : window_make params { windows := akd_init, heap := [], gtk := gtk, log := [] } =
        .ok (.string "0",
          { windows := { _dict := [("0", 0)], issued := 1 },
            heap := [{ base := gtk.fresh, identifier := some "0" }],
            gtk := { live := gtk.fresh :: gtk.live, active := gtk.active },
            log := [] }) := by
      have h_zero : toString (0 : Nat) = "0" := rfl
      rw [window_make_eq]
      simp [akd_insert_element, akd_init, g_hash_table_new, g_hash_table_insert, h_zero]
    have h_delete := window_delete_registered "0"
      (focus { windows := { _dict := [("0", 0)], issued := 1 },
               heap := [{ base := gtk.fresh, identifier := some "0" }],
               gtk := { live := gtk.fresh :: gtk.live, active := gtk.active },
               log := [] } active) 0
      { base := gtk.fresh, identifier := some "0" } rfl rfl (List.mem_cons_self _ _)
    refine ⟨"0", _, _, h_make, ?_, h_delete, ?_⟩
    · rintro ⟨e, h_e, h_act⟩
      have h_e' : e = ("0", 0) := by simpa using h_e
      subst h_e'
      have h_act' : gtk_window_is_active { live := gtk.fresh :: gtk.live, active := active }
          gtk.fresh = true := by
        simpa [State.is_active_entry, focus] using h_act
      simp [window_active, window_active_iter, focus, State.deref, h_act', g_variant_new_string]
    · exact window_active_of_iter_none params _ rfl

/-- Claim C2, evaluated on the code. In every state `window_delete` faults, rather
than return boolean `false`, when its first parameter is a boxed boolean, when the
parameter array is empty, and when the parsed value is not an array at all: the
check of the type only logs a warning and the accessors are then called outside
their preconditions. Only a parameter list that fails to parse yields `false`. -/
theorem window_delete_malformed_parameter (s : State) :
    window_delete { parsed := .ok (.array "v" [.variant (.boolean true)]) } s =
      .error .glib_precondition ∧
    window_delete { parsed := .ok (.array "v" []) } s = .error .glib_precondition ∧
    window_delete { parsed := .ok (.string "0") } s = .error .glib_precondition ∧
    ∀ message, window_delete { parsed := .error message } s =
      .ok (.boolean false, g_warning s ("Malformed method parameters: " ++ message)) :=
  ⟨rfl, rfl, rfl, fun _ => rfl⟩

/-- Claim C3, evaluated on the code. `window_delete` with a well-formed boxed-string
identifier that has no live registration faults by reading `window->base` through
the `NULL` pointer the lookup returned: for every identifier in the state that
`start_server` leaves (never issued), and in every state from whose registry the
identifier has just been removed (already deleted). -/
theorem window_delete_unknown_identifier (gtk : Gtk) (identifier : String) (s : State) :
    window_delete (boxed_string_params identifier)
        { windows := akd_init, heap := [], gtk := gtk, log := [] } =
      .error .null_dereference ∧
    window_delete (boxed_string_params identifier)
        { s with windows := akd_remove_object_for_key s.windows identifier } =
      .error .null_dereference :=
  ⟨window_delete_unregistered _ _ rfl,
    window_delete_unregistered _ _ (akd_object_for_key_removed _ _)⟩

/-! ## The dispatcher -/

theorem window_active_iter_string (s : State) (entries : GHashTable Nat) (result : GVariant)
    (h : window_active_iter s entries = .ok (some result)) :
    ∃ identifier, result = .string identifier := by
  induction entries with
  | nil => simp [window_active_iter] at h
  | cons e rest ih =>
    obtain ⟨k, p⟩ := e
    simp only [window_active_iter] at h
    split at h
    · cases h
    · rename_i window _
      split at h
      · cases h_id : window.identifier with
        | none => simp [h_id, g_variant_new_string] at h
        | some identifier =>
          simp only [h_id, g_variant_new_string, Except.ok.injEq, Option.some.injEq] at h
          exact ⟨identifier, h.symm⟩
      · exact ih h

theorem callback_result_supported (method_name : String) (callback : ServerCallback)
    (params : SoupXMLRPCParams) (s s' : State) (result : GVariant)
    (h_table : g_hash_table_lookup_extended server_callbacks method_name = some callback)
    (h_call : callback params s = .ok (result, s')) : xmlrpc_supported result = true := by
  rcases server_callbacks_lookup _ _ h_table with ⟨_, rfl⟩ | ⟨_, rfl⟩ | ⟨_, rfl⟩
  · rw [window_make_eq] at h_call
    cases h_call
    rfl
  · rcases window_delete_ok _ _ _ _ h_call with ⟨_, rfl, _⟩ | ⟨_, _, _, _, _, _, _, _, rfl, _⟩ <;> rfl
  · unfold window_active at h_call
    split at h_call
    · cases h_call
    · rename_i r h_iter
      obtain ⟨identifier, rfl⟩ := window_active_iter_string _ _ _ h_iter
      cases h_call
      rfl
    · cases h_call
      rfl

theorem server_callbacks_known (method_name : String)
    (h : method_name = "window.make" ∨ method_name = "window.delete" ∨
      method_name = "window.active") :
    ∃ callback, g_hash_table_lookup_extended server_callbacks method_name = some callback := by
  rcases h with rfl | rfl | rfl
  · exact ⟨window_make, rfl⟩
  · exact ⟨window_delete, rfl⟩
  · exact ⟨window_active, rfl⟩

/-- What the dispatcher does with a known method. For a request with a non-empty
body that decodes to a call of `window.make`, `window.delete` or `window.active`,
the method table holds a handler under that name, it is the handler of that method,
and `server_handler` is one run of this handler on the decoded parameters followed
by setting the response: when the handler returns a value and a state, the outcome
is that state and the message with exactly that value as its response; when the
handler faults, so does the dispatcher, and no response is set. -/
theorem server_handler_runs_callback (soup_xmlrpc_parse_request : Decoder) (msg : SoupMessage)
    (s : State) (method_name : String) (params : SoupXMLRPCParams)
    (h_body : msg.request_body.length ≠ 0)
    (h_decode : soup_xmlrpc_parse_request msg.request_body = .ok (method_name, params))
    (h_known : method_name = "window.make" ∨ method_name = "window.delete" ∨
      method_name = "window.active") :
    ∃ callback : ServerCallback,
      g_hash_table_lookup_extended server_callbacks method_name = some callback ∧
      (method_name = "window.make" → callback = window_make) ∧
      (method_name = "window.delete" → callback = window_delete) ∧
      (method_name = "window.active" → callback = window_active) ∧
      server_handler soup_xmlrpc_parse_request server_callbacks msg s =
        match callback params s with
        | .error fault => .error fault
        | .ok (operation_result, s') =>
          .ok ({ msg with response := some operation_result }, s') := by
  obtain ⟨callback, h_table⟩ := server_callbacks_known method_name h_known
  refine ⟨callback, h_table, ?_, ?_, ?_, ?_⟩
  · rintro rfl
    exact (Option.some.inj h_table).symm
  · rintro rfl
    exact (Option.some.inj h_table).symm
  · rintro rfl
    exact (Option.some.inj h_table).symm
  · simp only [server_handler, h_body, if_false, h_decode, h_table]
    cases h_call : callback params s with
    | error fault => rfl
    | ok r =>
      obtain ⟨operation_result, s'⟩ := r
      have := callback_result_supported _ _ _ _ _ _ h_table h_call
      simp [soup_xmlrpc_message_set_response, this]

/-- Claim C7, unknown method. For a request with a non-empty body that decodes to a
call whose method name is not in the method table, `server_handler` returns the
message as it received it (no response is set) and a state that differs from the
one before only by a logged warning: registry, windows and toolkit are untouched,
so no handler ran. -/
theorem server_handler_unknown_method (soup_xmlrpc_parse_request : Decoder) (msg : SoupMessage)
    (s : State) (method_name : String) (params : SoupXMLRPCParams)
    (h_body : msg.request_body.length ≠ 0)
    (h_decode : soup_xmlrpc_parse_request msg.request_body = .ok (method_name, params))
    (h_unknown : g_hash_table_lookup_extended server_callbacks method_name = none) :
    ∃ s', server_handler soup_xmlrpc_parse_request server_callbacks msg s = .ok (msg, s') ∧
      s' = g_warning s ("Unknown method: " ++ method_name) ∧
      s'.windows = s.windows ∧ s'.heap = s.heap ∧ s'.gtk = s.gtk := by
  refine ⟨_, ?_, rfl, rfl, rfl, rfl⟩
  simp only [server_handler, h_body, if_false, h_decode, h_unknown]

/-- Claim C8, dispatch robustness. For a request whose body is empty or does not
decode, `server_handler` returns without a fault, with the message as it received
it (no response is set) and a state that differs from the one before only by a
logged warning: registry, windows and toolkit are untouched, so no handler ran. -/
theorem server_handler_undecodable (soup_xmlrpc_parse_request : Decoder) (msg : SoupMessage)
    (s : State)
    (h : msg.request_body.length = 0 ∨
      ∃ message, soup_xmlrpc_parse_request msg.request_body = .error message) :
    ∃ message, server_handler soup_xmlrpc_parse_request server_callbacks msg s =
        .ok (msg, g_warning s message) ∧
      (g_warning s message).windows = s.windows ∧ (g_warning s message).heap = s.heap ∧
      (g_warning s message).gtk = s.gtk := by
  by_cases h_body : msg.request_body.length = 0
  · exact ⟨"Empty HTTP request", by simp only [server_handler, h_body, if_true], rfl, rfl, rfl⟩
  · rcases h with h | ⟨message, h_decode⟩
    · exact absurd h h_body
    · exact ⟨"Malformed XMLRPC request: " ++ message,
        by simp only [server_handler, h_body, if_false, h_decode], rfl, rfl, rfl⟩

/-- Claim C10, delete removes exactly its target. In every state, if `I` is registered
to the window pointer `window` and `window_delete` on `I` returns `true`, then
afterwards a lookup of `I` finds nothing; the widget that was destroyed is the one
of the window registered under `I`, it was alive, and every other widget is alive
exactly when it was before; every other identifier is registered to the pointer it
was registered to; and no `Window` structure changed. -/
theorem window_delete_removes_exactly_target (s s' : State) (identifier : String) (window : Nat)
    (h_registered : akd_object_for_key s.windows identifier = some window)
    (h_deleted : window_delete (boxed_string_params identifier) s = .ok (.boolean true, s')) :
    akd_object_for_key s'.windows identifier = none ∧
    (∃ w, s.heap[window]? = some w ∧ w.base ∈ s.gtk.live ∧
      ∀ widget, widget ∈ s'.gtk.live ↔ widget ∈ s.gtk.live ∧ widget ≠ w.base) ∧
    (∀ other, other ≠ identifier →
      akd_object_for_key s'.windows other = akd_object_for_key s.windows other) ∧
    s'.heap = s.heap := by
  rw [window_delete_boxed_eq, h_registered] at h_deleted
  cases h_ptr : s.heap[window]? with
  | none => simp [State.deref, h_ptr] at h_deleted
  | some w =>
    by_cases h_live : w.base ∈ s.gtk.live
    · simp only [State.deref, h_ptr, gtk_widget_destroy, h_live, if_true, Except.ok.injEq,
        Prod.mk.injEq, true_and] at h_deleted
      subst h_deleted
      refine ⟨akd_object_for_key_removed _ _, ⟨w, rfl, h_live, ?_⟩, ?_, rfl⟩
      · intro widget
        simp
      · intro other h_other
        exact g_hash_table_lookup_remove_ne _ _ _ h_other
    · simp [State.deref, h_ptr, gtk_widget_destroy, h_live] at h_deleted

/-! ## Runs of the server -/

theorem callback_issued (method_name : String) (callback : ServerCallback)
    (params : SoupXMLRPCParams) (s s' : State) (result : GVariant)
    (h_table : g_hash_table_lookup_extended server_callbacks method_name = some callback)
    (h_call : callback params s = .ok (result, s')) :
    s.windows.issued ≤ s'.windows.issued ∧
    (method_name = "window.make" →
      result = .string (toString s.windows.issued) ∧
      s'.windows.issued = s.windows.issued + 1) := by
  rcases server_callbacks_lookup _ _ h_table with ⟨rfl, rfl⟩ | ⟨rfl, rfl⟩ | ⟨rfl, rfl⟩
  · rw [window_make_eq] at h_call
    cases h_call
    simp [akd_insert_element]
  · refine ⟨?_, fun h => absurd h (by decide)⟩
    rcases window_delete_ok _ _ _ _ h_call with
      ⟨_, _, rfl⟩ | ⟨s₁, _, _, _, h_s₁, _, _, _, _, rfl⟩
    · exact Nat.le_refl _
    · rcases h_s₁ with rfl | ⟨_, rfl⟩ <;> exact Nat.le_refl _
  · refine ⟨?_, fun h => absurd h (by decide)⟩
    rw [window_active_state _ _ _ _ h_call]

theorem server_handler_step (soup_xmlrpc_parse_request : Decoder) (msg msg' : SoupMessage)
    (s s' : State) (h_inv : Inv s) (h_fresh : msg.response = none)
    (h : server_handler soup_xmlrpc_parse_request server_callbacks msg s = .ok (msg', s')) :
    Inv s' ∧ s.windows.issued ≤ s'.windows.issued ∧
    ∀ params value,
      soup_xmlrpc_parse_request msg.request_body = .ok ("window.make", params) →
      msg'.response = some value →
      value = .string (toString s.windows.issued) ∧
      s'.windows.issued = s.windows.issued + 1 := by
  unfold server_handler at h
  split at h
  · cases h
    exact ⟨h_inv.after_warning _, Nat.le_refl _, fun _ _ _ h_some => by simp [h_fresh] at h_some⟩
  · split at h
    · cases h
      exact ⟨h_inv.after_warning _, Nat.le_refl _,
        fun _ _ _ h_some => by simp [h_fresh] at h_some⟩
    · rename_i method_name params h_decode
      split at h
      · cases h
        exact ⟨h_inv.after_warning _, Nat.le_refl _,
          fun _ _ _ h_some => by simp [h_fresh] at h_some⟩
      · rename_i callback h_table
        split at h
        · cases h
        · rename_i operation_result s₁ h_call
          have h_inv₁ := h_inv.after_callback method_name callback params operation_result
            h_table h_call
          obtain ⟨h_le, h_make⟩ := callback_issued _ _ _ _ _ _ h_table h_call
          split at h
          · cases h
            exact ⟨h_inv₁.after_warning _, h_le,
              fun _ _ _ h_some => by simp [h_fresh] at h_some⟩
          · rename_i msg₁ h_set
            cases h
            refine ⟨h_inv₁, h_le, ?_⟩
            intro params' value h_decode' h_some
            rw [h_decode] at h_decode'
            simp only [Except.ok.injEq, Prod.mk.injEq] at h_decode'
            obtain ⟨h_name, _⟩ := h_decode'
            obtain ⟨h_result, h_issued⟩ := h_make h_name
            unfold soup_xmlrpc_message_set_response at h_set
            split at h_set
            · cases h_set
              simp only [Option.some.injEq] at h_some
              exact ⟨h_some ▸ h_result, h_issued⟩
            · cases h_set

theorem serve_made_identifiers (soup_xmlrpc_parse_request : Decoder) (events : List Event) :
    ∀ s : State, Inv s →
      (∀ value ∈ made_identifiers (serve soup_xmlrpc_parse_request server_callbacks events s).1,
        ∃ i, s.windows.issued ≤ i ∧ value = .string (toString i)) ∧
      (made_identifiers (serve soup_xmlrpc_parse_request server_callbacks events s).1).Nodup ∧
      ∀ final, (serve soup_xmlrpc_parse_request server_callbacks events s).2 = some final →
        Inv final := by
  induction events with
  | nil =>
    intro s h_inv
    refine ⟨by simp [serve, made_identifiers], by simp [serve, made_identifiers], ?_⟩
    intro final h_final
    simp only [serve, Option.some.injEq] at h_final
    exact h_final ▸ h_inv
  | cons event rest ih =>
    intro s h_inv
    cases event with
    | focus active =>
      simp only [serve]
      exact ih (focus s active) (h_inv.after_focus active)
    | request request_body =>
      simp only [serve]
      cases h_step : server_handler soup_xmlrpc_parse_request server_callbacks
          { request_body := request_body, response := none } s with
      | error fault => simp [made_identifiers]
      | ok r =>
        obtain ⟨msg', s'⟩ := r
        obtain ⟨h_inv', h_le, h_make⟩ :=
          server_handler_step _ _ _ _ _ h_inv rfl h_step
        obtain ⟨ih_range, ih_nodup, ih_final⟩ := ih s' h_inv'
        have ih_range' : ∀ value ∈
            made_identifiers (serve soup_xmlrpc_parse_request server_callbacks rest s').1,
            ∃ i, s.windows.issued ≤ i ∧ value = .string (toString i) := by
          intro value h_value
          obtain ⟨i, h_i, h_eq⟩ := ih_range value h_value
          exact ⟨i, Nat.le_trans h_le h_i, h_eq⟩
        simp only
        cases h_decode : soup_xmlrpc_parse_request request_body with
        | error message => exact ⟨ih_range', ih_nodup, ih_final⟩
        | ok call =>
          obtain ⟨method_name, params⟩ := call
          cases h_response : msg'.response with
          | none => exact ⟨ih_range', ih_nodup, ih_final⟩
          | some value =>
            simp only
            by_cases h_name : method_name = "window.make"
            · subst h_name
              obtain ⟨h_value, h_issued⟩ := h_make params value h_decode h_response
              have h_cons : made_identifiers (("window.make", value) ::
                  (serve soup_xmlrpc_parse_request server_callbacks rest s').1) =
                  value :: made_identifiers
                    (serve soup_xmlrpc_parse_request server_callbacks rest s').1 := by
                simp [made_identifiers]
              rw [h_cons]
              refine ⟨?_, ?_, ih_final⟩
              · intro v h_v
                rcases List.mem_cons.1 h_v with rfl | h_v
                · exact ⟨s.windows.issued, Nat.le_refl _, h_value⟩
                · exact ih_range' v h_v
              · refine List.nodup_cons.2 ⟨?_, ih_nodup⟩
                intro h_mem
                obtain ⟨i, h_i, h_eq⟩ := ih_range value h_mem
                rw [h_value] at h_eq
                have := toString_nat_injective _ _ (GVariant.string.inj h_eq)
                omega
            · have h_cons : made_identifiers ((method_name, value) ::
                  (serve soup_xmlrpc_parse_request server_callbacks rest s').1) =
                  made_identifiers
                    (serve soup_xmlrpc_parse_request server_callbacks rest s').1 := by
                simp [made_identifiers, h_name]
              rw [h_cons]
              exact ⟨ih_range', ih_nodup, ih_final⟩

/-- Claim C9, uniqueness. For every decoder and every sequence of requests and focus
changes handled one after another from the state `start_server` leaves, the values
returned by the `window.make` calls of the run are pairwise distinct, whatever
other calls are interleaved, and in the state the run ends in, no identifier is
registered twice. -/
theorem window_make_identifiers_distinct (soup_xmlrpc_parse_request : Decoder) (gtk : Gtk)
    (table : GHashTable ServerCallback) (s₀ : State) (events : List Event)
    (h_start : start_server none gtk = some (table, s₀)) :
    (made_identifiers (serve soup_xmlrpc_parse_request table events s₀).1).Nodup ∧
    ∀ final, (serve soup_xmlrpc_parse_request table events s₀).2 = some final →
      (final.windows._dict.map Prod.fst).Nodup := by
  simp only [start_server, Option.some.injEq, Prod.mk.injEq] at h_start
  obtain ⟨rfl, rfl⟩ := h_start
  obtain ⟨_, h_nodup, h_final⟩ :=
    serve_made_identifiers soup_xmlrpc_parse_request events _ (Inv.of_start gtk)
  exact ⟨h_nodup, fun final h => (h_final final h).keys_nodup⟩

/-! ## The properties on concrete inputs -/

theorem example_two_windows_reachable : Reachable example_two_windows := by
  have h₀ : Reachable example_start := Reachable.start { live := [], active := [] } _ _ rfl
  have h₁ := Reachable.call _ _ "window.make" window_make { parsed := .ok (.array "v" []) }
    (.string "0") h₀ rfl rfl
  have h₂ := Reachable.call _ _ "window.make" window_make { parsed := .ok (.array "v" []) }
    (.string "1") h₁ rfl rfl
  exact Reachable.focus _ [1] h₂

/-- Claim C4, evaluated on the code. A request with a non-empty body that decodes to
a call of `window.delete`, a name under which the method table holds a handler,
gets no response when its identifier is not registered: in the reachable state
that `start_server` leaves, the handler faults on the `NULL` pointer of the lookup
and the dispatcher with it, before any response is set. The same happens with a
boolean as the parameter. A `window.make` request in the same state does get its
response. -/
theorem server_handler_known_method_no_response :
    Reachable example_start ∧
    ([2, 5] : List UInt8).length ≠ 0 ∧
    example_decoder [2, 5] = .ok ("window.delete", boxed_string_params "5") ∧
    g_hash_table_lookup_extended server_callbacks "window.delete" = some window_delete ∧
    server_handler example_decoder server_callbacks
        { request_body := [2, 5], response := none } example_start =
      .error .null_dereference ∧
    server_handler
        (fun _ => .ok ("window.delete", { parsed := .ok (.array "v" [.variant (.boolean true)]) }))
        server_callbacks { request_body := [2, 5], response := none } example_start =
      .error .glib_precondition ∧
    server_handler example_decoder server_callbacks
        { request_body := [1], response := none } example_start =
      .ok ({ request_body := [1], response := some (.string "0") },
        { windows := { _dict := [("0", 0)], issued := 1 },
          heap := [{ base := 0, identifier := some "0" }],
          gtk := { live := [0], active := [] }, log := [] }) :=
  ⟨Reachable.start { live := [], active := [] } _ _ rfl, by decide, rfl, rfl, rfl, rfl, rfl⟩

theorem example_two_windows_rehashed_reachable : Reachable example_two_windows_rehashed := by
  have h₀ : Reachable example_start := Reachable.start { live := [], active := [] } _ _ rfl
  have h₁ := Reachable.call _ _ "window.make" window_make { parsed := .ok (.array "v" []) }
    (.string "0") h₀ rfl rfl
  have h₂ := Reachable.call _ _ "window.make" window_make { parsed := .ok (.array "v" []) }
    (.string "1") h₁ rfl rfl
  have h₃ := Reachable.rehash _ [("1", 1), ("0", 0)] h₂ (List.Perm.swap _ _ _)
  exact Reachable.focus _ [0, 1] h₃

/-- Claim C5 on a reachable state of two windows that both have the focus, the
iterator meeting the window made second first: `window_active` returns "1". -/
theorem window_active_first_active_witness :
    Reachable example_two_windows_rehashed ∧
    (∃ e ∈ example_two_windows_rehashed.windows._dict,
      example_two_windows_rehashed.is_active_entry e = true) ∧
    window_active { parsed := .ok (.array "v" []) } example_two_windows_rehashed =
      .ok (.string "1", example_two_windows_rehashed) ∧
    ∃ (identifier : String) (window : Nat) (w : Window),
      example_two_windows_rehashed.windows._dict.find?
          example_two_windows_rehashed.is_active_entry = some (identifier, window) ∧
      window_active { parsed := .ok (.array "v" []) } example_two_windows_rehashed =
        .ok (.string identifier, example_two_windows_rehashed) ∧
      akd_object_for_key example_two_windows_rehashed.windows identifier = some window ∧
      example_two_windows_rehashed.heap[window]? = some w ∧
      gtk_window_is_active example_two_windows_rehashed.gtk w.base = true ∧
      ∃ s', window_delete (boxed_string_params identifier) example_two_windows_rehashed =
        .ok (.boolean true, s') :=
  ⟨example_two_windows_rehashed_reachable, ⟨("1", 1), by decide, rfl⟩, rfl,
    (window_active_first_active { parsed := .ok (.array "v" []) }).1
      example_two_windows_rehashed example_two_windows_rehashed_reachable
      ⟨("1", 1), by decide, rfl⟩⟩

/-- Claim C7 on a call of `nonexistent.method`. -/
theorem server_handler_unknown_method_witness :
    ([4] : List UInt8).length ≠ 0 ∧
    example_decoder [4] = .ok ("nonexistent.method", { parsed := .ok (.array "v" []) }) ∧
    g_hash_table_lookup_extended server_callbacks "nonexistent.method" = none ∧
    ∃ s', server_handler example_decoder server_callbacks
        { request_body := [4], response := none } example_two_windows =
        .ok ({ request_body := [4], response := none }, s') ∧
      s' = g_warning example_two_windows ("Unknown method: " ++ "nonexistent.method") ∧
      s'.windows = example_two_windows.windows ∧ s'.heap = example_two_windows.heap ∧
      s'.gtk = example_two_windows.gtk :=
  ⟨by decide, rfl, rfl,
    server_handler_unknown_method example_decoder { request_body := [4], response := none }
      example_two_windows "nonexistent.method" { parsed := .ok (.array "v" []) }
      (by decide) rfl rfl⟩

/-- Claim C8 on a body that does not decode. -/
theorem server_handler_undecodable_witness :
    example_decoder [9, 9] = .error "not an XML-RPC call" ∧
    ∃ message, server_handler example_decoder server_callbacks
        { request_body := [9, 9], response := none } example_two_windows =
        .ok ({ request_body := [9, 9], response := none },
          g_warning example_two_windows message) ∧
      (g_warning example_two_windows message).windows = example_two_windows.windows ∧
      (g_warning example_two_windows message).heap = example_two_windows.heap ∧
      (g_warning example_two_windows message).gtk = example_two_windows.gtk :=
  ⟨rfl,
    server_handler_undecodable example_decoder { request_body := [9, 9], response := none }
      example_two_windows (Or.inr ⟨"not an XML-RPC call", rfl⟩)⟩

/-- Claim C9 on a run of three `window.make` calls with a `window.delete` between them. -/
theorem window_make_identifiers_distinct_witness :
    start_server none { live := [], active := [] } = some (server_callbacks, example_start) ∧
    (made_identifiers (serve example_decoder server_callbacks
      [.request [1], .request [1], .focus [1], .request [2, 0], .request [1]]
      example_start).1).Nodup ∧
    ∀ final, (serve example_decoder server_callbacks
      [.request [1], .request [1], .focus [1], .request [2, 0], .request [1]]
      example_start).2 = some final →
      (final.windows._dict.map Prod.fst).Nodup :=
  ⟨rfl,
    window_make_identifiers_distinct example_decoder { live := [], active := [] }
      server_callbacks example_start
      [.request [1], .request [1], .focus [1], .request [2, 0], .request [1]] rfl⟩

/-- Claim C10 on the deletion of the first of two windows. -/
theorem window_delete_removes_exactly_target_witness :
    akd_object_for_key example_two_windows.windows "0" = some 0 ∧
    window_delete (boxed_string_params "0") example_two_windows =
      .ok (.boolean true,
        { windows := { _dict := [("1", 1)], issued := 2 },
          heap := [{ base := 0, identifier := some "0" }, { base := 1, identifier := some "1" }],
          gtk := { live := [1], active := [1] },
          log := [] }) ∧
    akd_object_for_key { _dict := [("1", 1)], issued := 2 } "0" = none ∧
    (∃ w, example_two_windows.heap[0]? = some w ∧ w.base ∈ example_two_windows.gtk.live ∧
      ∀ widget, widget ∈ [1] ↔ widget ∈ example_two_windows.gtk.live ∧ widget ≠ w.base) ∧
    (∀ other, other ≠ "0" →
      akd_object_for_key { _dict := [("1", 1)], issued := 2 } other =
        akd_object_for_key example_two_windows.windows other) ∧
    [{ base := 0, identifier := some "0" }, { base := 1, identifier := some "1" }] =
      example_two_windows.heap :=
  ⟨rfl, rfl,
    window_delete_removes_exactly_target example_two_windows _ "0" 0 rfl rfl⟩

end GtkWebkit
